import Mathlib

/-!
Shallow embedding of `src/gpio/gpio.go` (package `gpio`).

The PWM engine of the package consists of:
  * `valueToDuration` — duty value to high-phase duration,
  * `startPwmLoop` / `stopPwmLoop` — engine-side start/update/stop protocol,
  * the control-loop goroutine body launched by `startPwmLoop`,
  * `SetPWM`, `Close`, `GetValue`, `SetHigh`, `SetLow` — the pin methods.

Concurrency is embedded by serialising the rendezvous on the unbuffered
channels: every engine call either completes a rendezvous with the goroutine
(whose handler is run to its next suspension point) or blocks forever, in
which case the call is modelled as returning `none`.  This matches §5 of the
design: all operations on one pin are serialised by the caller, channels are
unbuffered with a single reader, and the goroutine between rendezvous sits at
its `select` point.  A goroutine that is blocked on `<-p.quitPwmLoop` after a
failed line write is modelled by the loop mode `awaitingQuit err`.

Line writes may fail; failures are supplied by an oracle indexed by the
number of write attempts made so far, mirroring an injected line-driver
double whose n-th write returns a chosen error.
-/

namespace Gpio

/-- Go `time.Duration` is an `int64` count of nanoseconds; embedded as `Int`
(no arithmetic here comes near the 64-bit range). -/
abbrev Duration := Int

/-- One `time.Millisecond` in nanoseconds. -/
def millisecond : Duration := 1000000

/-- The fixed loop period: `20 * time.Millisecond`. -/
def period : Duration := 20 * millisecond

/-- Two-complement wraparound of Go `int64` arithmetic: reduce into
`[-2^63, 2^63)`.  The literals are `2^63` and `2^64`. -/
def wrap64 (n : Int) : Int :=
  (n + 9223372036854775808) % 18446744073709551616 - 9223372036854775808

/-- Embedding of `func valueToDuration(value int, max time.Duration) time.Duration \x7b
return (max / time.Duration(100)) * time.Duration(value) \x7d`.
Go integer division truncates toward zero, hence `Int.tdiv` (for the fixed
20 ms period the division is exact and cannot overflow); the `int64`
multiplication wraps on overflow, hence `wrap64`. -/
def valueToDuration (value : Int) (max : Duration) : Duration :=
  wrap64 ((max.tdiv 100) * value)

/-- A line level, as written through the value file (`"1"` / `"0"`). -/
inductive Level
  | low
  | high
deriving DecidableEq, Repr

/-- Errors returned by the wrapped file operations. -/
abbrev Err := String

/-- Failure oracle for line writes: `o n` is the error returned by the n-th
write attempt on the value file, `none` if that write succeeds. -/
abbrev WriteOracle := Nat → Option Err

/-- Where the control-loop goroutine is suspended. -/
inductive LoopMode
  /-- suspended at the `select`, ready for updates, quits and ticks. -/
  | running
  /-- suspended at `reply := <-p.quitPwmLoop` after a failed line write
  inside a tick, holding the write error it will reply with. -/
  | awaitingQuit (e : Err)
deriving DecidableEq, Repr

/-- Local state of the goroutine between suspension points. -/
structure LoopState where
  /-- Field of `var highDuration time.Duration` — starts at the zero value. -/
  highDuration : Duration
  mode : LoopMode
deriving DecidableEq, Repr

/-- Observable state of one `pin` plus its line, with instrumentation:
`writeLog` records the successful writes in order, `holdLog` records the
`time.Sleep(highDuration)` lengths, `loopsStarted` counts `go func()`
launches and `liveLoops` counts goroutines not yet returned. -/
structure PinState where
  /-- current level of the line. -/
  line : Level
  /-- Channels `p.pwmLoop`/`p.quitPwmLoop` are non-nil iff a goroutine is
  attached; `some ls` holds the local state of that goroutine. -/
  loop : Option LoopState
  /-- number of write attempts made on the value file so far. -/
  writeCount : Nat
  /-- successful writes, oldest first. -/
  writeLog : List Level
  /-- sleep length of every high phase entered, oldest first. -/
  holdLog : List Duration
  /-- number of `go func()` launches so far. -/
  loopsStarted : Nat
  /-- number of launched goroutines that have not yet run their cleanup. -/
  liveLoops : Nat
deriving DecidableEq, Repr

/-- A pin fresh out of `NewPWMPin`: exported, direction out, no loop. -/
def freshPin : PinState :=
  { line := Level.low, loop := none, writeCount := 0, writeLog := [],
    holdLog := [], loopsStarted := 0, liveLoops := 0 }

/-- One attempt to write `l` to the value file: consult the oracle at the
current write index; on success the line takes the level. -/
def writeLevel (o : WriteOracle) (s : PinState) (l : Level) :
    Option Err × PinState :=
  match o s.writeCount with
  | some e => (some e, { s with writeCount := s.writeCount + 1 })
  | none => (none, { s with writeCount := s.writeCount + 1,
                            line := l, writeLog := s.writeLog ++ [l] })

/-- Embedding of `func (p *pin) SetHigh() error` — a single write of `"1"`. -/
def SetHigh (o : WriteOracle) (s : PinState) : Option Err × PinState :=
  writeLevel o s Level.high

/-- Embedding of `func (p *pin) SetLow() error` — a single write of `"0"`. -/
def SetLow (o : WriteOracle) (s : PinState) : Option Err × PinState :=
  writeLevel o s Level.low

/-- Cleanup of the goroutine (`defer`): close and nil the channels — the loop
detaches — and account the goroutine as exited. -/
def exitLoop (s : PinState) : PinState :=
  { s with loop := none, liveLoops := s.liveLoops - 1 }

/-- The `case v := <-p.pwmLoop` arm of the `select` of the goroutine, for a loop
suspended at the `select` with local state `ls`:

  * `v == 0`: `p.SetLow()` (error discarded) and return;
  * `v == 100`: `p.SetHigh()` (error discarded) and return;
  * otherwise `highDuration = valueToDuration(v, period)` and loop again. -/
def recvUpdate (o : WriteOracle) (s : PinState) (ls : LoopState) (v : Int) :
    PinState :=
  if v = 0 then
    exitLoop (SetLow o s).2
  else if v = 100 then
    exitLoop (SetHigh o s).2
  else
    { s with loop := some { ls with highDuration := valueToDuration v period } }

/-- Embedding of `func (p *pin) startPwmLoop(initialValue int)`.  If a loop is attached,
the value is sent on `p.pwmLoop`: received and handled if the goroutine is
at its `select`, but if the goroutine is blocked on `<-p.quitPwmLoop` the
send has no receiver and the call blocks forever (`none`).  Otherwise the
channels are created and the goroutine launched; its `highDuration` starts
at the zero value — the fresh-start branch never uses `initialValue`. -/
def startPwmLoop (o : WriteOracle) (s : PinState) (initialValue : Int) :
    Option PinState :=
  match s.loop with
  | some ls =>
    match ls.mode with
    | LoopMode.running => some (recvUpdate o s ls initialValue)
    | LoopMode.awaitingQuit _ => none
  | none =>
    some { s with
      loop := some { highDuration := 0, mode := LoopMode.running },
      loopsStarted := s.loopsStarted + 1,
      liveLoops := s.liveLoops + 1 }

/-- Embedding of `func (p *pin) stopPwmLoop() error`: `nil` when no loop is attached;
otherwise send a reply channel on `p.quitPwmLoop` and wait.  A goroutine at
its `select` replies `nil` and returns; a goroutine blocked after a failed
write replies with the error of that write and returns. -/
def stopPwmLoop (s : PinState) : Option Err × PinState :=
  match s.loop with
  | none => (none, s)
  | some ls =>
    match ls.mode with
    | LoopMode.running => (none, exitLoop s)
    | LoopMode.awaitingQuit e => (some e, exitLoop s)

/-- The `case <-ticker.C` arm: `SetHigh`, and on failure block on
`<-p.quitPwmLoop` holding the error; else `time.Sleep(highDuration)`,
`SetLow`, and on failure likewise block; else loop again. -/
def runTick (o : WriteOracle) (s : PinState) (ls : LoopState) : PinState :=
  match SetHigh o s with
  | (some e, s1) => { s1 with loop := some { ls with mode := LoopMode.awaitingQuit e } }
  | (none, s1) =>
    match SetLow o { s1 with holdLog := s1.holdLog ++ [ls.highDuration] } with
    | (some e, s3) => { s3 with loop := some { ls with mode := LoopMode.awaitingQuit e } }
    | (none, s3) => s3

/-- A ticker tick delivered to the pin: handled by the `select` when a loop
is attached and at its `select` point; otherwise nothing happens (no loop,
or the goroutine is blocked on `<-p.quitPwmLoop` and ignores its ticker). -/
def tick (o : WriteOracle) (s : PinState) : PinState :=
  match s.loop with
  | none => s
  | some ls =>
    match ls.mode with
    | LoopMode.awaitingQuit _ => s
    | LoopMode.running => runTick o s ls

/-- Embedding of `func (p *pin) SetPWM(value int) error`:

  * `value == 0`: `p.stopPwmLoop()` then `p.SetLow()`, both errors
    discarded, return `nil`;
  * otherwise `p.startPwmLoop(value)` and return `nil`.

`none` models a call that never returns (blocked channel send). -/
def SetPWM (o : WriteOracle) (s : PinState) (value : Int) :
    Option (Option Err × PinState) :=
  if value = 0 then
    some (none, (SetLow o (stopPwmLoop s).2).2)
  else
    (startPwmLoop o s value).map (fun s1 => ((none : Option Err), s1))

/-- The three teardown steps of `Close`, in source order. -/
inductive CloseStep
  | stopLoop
  | closeValueFile
  | unexportChannel
deriving DecidableEq, Repr

/-- Embedding of `func (p *pin) Close() error`: `stopPwmLoop`, then `valueFile.Close()`,
then `unexportChannel`, returning the first error and skipping the rest.
`closeErr`/`unexportErr` supply the results of the two file operations; the
returned list records which steps were reached. -/
def Close (closeErr unexportErr : Option Err) (s : PinState) :
    Option Err × PinState × List CloseStep :=
  match stopPwmLoop s with
  | (some e, s1) => (some e, s1, [CloseStep.stopLoop])
  | (none, s1) =>
    match closeErr with
    | some e => (some e, s1, [CloseStep.stopLoop, CloseStep.closeValueFile])
    | none => (unexportErr, s1,
        [CloseStep.stopLoop, CloseStep.closeValueFile, CloseStep.unexportChannel])

/-- Model of `strconv.Atoi`: optional sign followed by at least one decimal
digit; on malformed input the Go function returns `0` and an error. -/
def Atoi (str : String) : Int × Option Err :=
  let unsigned : List Char → Int × Option Err := fun ds =>
    if ds ≠ [] ∧ ds.all Char.isDigit then
      ((ds.foldl (fun acc c => acc * 10 + (c.toNat - 48)) 0 : Nat), none)
    else
      (0, some "invalid")
  match str.toList with
  | '-' :: ds => let (n, e) := unsigned ds; (-n, e)
  | '+' :: ds => unsigned ds
  | ds => unsigned ds

/-- Embedding of `func (p *pin) GetValue() (int, error)`: `readResult` is the outcome of
`ioutil.ReadAll(p.valueFile)`.  On a read error the function returns
`0, nil` — the error is swallowed; on success it returns `strconv.Atoi` of
the bytes. -/
def GetValue (readResult : Except Err String) : Int × Option Err :=
  match readResult with
  | Except.error _ => (0, none)
  | Except.ok b => Atoi b

/-! Concrete drivers and states used as test inputs. -/

/-- A line driver whose writes all succeed. -/
def noFail : WriteOracle := fun _ => none

/-- A line driver whose writes all fail with the same error. -/
def failAll : WriteOracle := fun _ => some "boom"

/-- A line driver whose second write (index 1) fails and all others
succeed: inside the first tick, `SetHigh` succeeds and `SetLow` fails. -/
def failSecond : WriteOracle := fun n => if n = 1 then some "boom" else none

/-- The pin after one fresh `SetPWM` call on `freshPin`: a goroutine is
attached, suspended at its `select`, with `highDuration` still zero. -/
def startedPin : PinState :=
  { line := Level.low, loop := some { highDuration := 0, mode := LoopMode.running },
    writeCount := 0, writeLog := [], holdLog := [],
    loopsStarted := 1, liveLoops := 1 }

/-- A pin with an attached loop running at duty 50 (high phase 10 ms). -/
def runningPin : PinState :=
  { startedPin with
    loop := some { highDuration := 10000000, mode := LoopMode.running } }

/-- State of `startedPin` after a duty update to 30 (high phase 6 ms). -/
def updatedPin : PinState :=
  { startedPin with
    loop := some { highDuration := 6000000, mode := LoopMode.running } }

/-! A serialised history of operations on one pin, as required by §5
(a single line is never driven from two threads of control). -/

/-- One serialised event on the pin: an engine call or a ticker tick. -/
inductive Call
  | setPWM (v : Int)
  | close (ce ue : Option Err)
  | timerTick
deriving DecidableEq, Repr

/-- Run one event.  An engine call that blocks forever makes no further
progress, so the state it can be observed at is unchanged. -/
def runCall (o : WriteOracle) (s : PinState) : Call → PinState
  | Call.setPWM v =>
    match SetPWM o s v with
    | some r => r.2
    | none => s
  | Call.close ce ue => (Close ce ue s).2.1
  | Call.timerTick => tick o s

/-- Run a serialised history of events. -/
def runCalls (o : WriteOracle) (cs : List Call) (s : PinState) : PinState :=
  cs.foldl (runCall o) s

/-- Loop-accounting invariant: the number of live goroutines is 1 exactly
when the channels are attached, 0 otherwise. -/
def goodPin (s : PinState) : Prop :=
  s.liveLoops = (if s.loop.isSome then 1 else 0)

instance (s : PinState) : Decidable (goodPin s) := by
  unfold goodPin; infer_instance

/-! Helper lemmas. -/

theorem writeLevel_fields (o : WriteOracle) (s : PinState) (l : Level) :
    (writeLevel o s l).2.loop = s.loop
    ∧ (writeLevel o s l).2.liveLoops = s.liveLoops
    ∧ (writeLevel o s l).2.loopsStarted = s.loopsStarted := by
  unfold writeLevel
  cases o s.writeCount <;> simp

theorem SetHigh_fields (o : WriteOracle) (s : PinState) :
    (SetHigh o s).2.loop = s.loop
    ∧ (SetHigh o s).2.liveLoops = s.liveLoops
    ∧ (SetHigh o s).2.loopsStarted = s.loopsStarted :=
  writeLevel_fields o s Level.high

theorem SetLow_fields (o : WriteOracle) (s : PinState) :
    (SetLow o s).2.loop = s.loop
    ∧ (SetLow o s).2.liveLoops = s.liveLoops
    ∧ (SetLow o s).2.loopsStarted = s.loopsStarted :=
  writeLevel_fields o s Level.low

theorem stopPwmLoop_fields (s : PinState) :
    (stopPwmLoop s).2.loop = none
    ∧ (stopPwmLoop s).2.writeCount = s.writeCount
    ∧ (stopPwmLoop s).2.writeLog = s.writeLog
    ∧ (stopPwmLoop s).2.holdLog = s.holdLog
    ∧ (stopPwmLoop s).2.loopsStarted = s.loopsStarted := by
  unfold stopPwmLoop
  cases hl : s.loop with
  | none => simp [hl]
  | some ls => cases hm : ls.mode <;> simp [hm, exitLoop]

theorem tdiv_period : period.tdiv 100 = 200000 := by decide

theorem wrap64_eq_self (n : Int) (h1 : -9223372036854775808 ≤ n)
    (h2 : n < 9223372036854775808) : wrap64 n = n := by
  unfold wrap64
  omega

theorem valueToDuration_period (v : Int) :
    valueToDuration v period = wrap64 (200000 * v) := by
  unfold valueToDuration
  rw [tdiv_period]

theorem exitLoop_fields (s : PinState) :
    (exitLoop s).loop = none ∧ (exitLoop s).liveLoops = s.liveLoops - 1
    ∧ (exitLoop s).loopsStarted = s.loopsStarted := by
  unfold exitLoop; exact ⟨rfl, rfl, rfl⟩

theorem goodPin_stopPwmLoop (s : PinState) (h : goodPin s) :
    goodPin (stopPwmLoop s).2 := by
  unfold goodPin at h ⊢
  unfold stopPwmLoop
  cases hl : s.loop with
  | none => simpa [hl] using h
  | some ls =>
    rw [hl] at h
    simp at h
    cases hm : ls.mode <;> simp [hl, hm, exitLoop, h]

theorem goodPin_recvUpdate (o : WriteOracle) (s : PinState) (ls : LoopState)
    (v : Int) (hloop : s.loop = some ls) (h : goodPin s) :
    goodPin (recvUpdate o s ls v) := by
  unfold goodPin at h ⊢
  rw [hloop] at h
  simp at h
  unfold recvUpdate SetLow SetHigh
  obtain ⟨hwl1, hwl2, -⟩ := writeLevel_fields o s Level.low
  obtain ⟨hwh1, hwh2, -⟩ := writeLevel_fields o s Level.high
  by_cases hv : v = 0
  · simp [hv, exitLoop, hwl2, h]
  · by_cases hv100 : v = 100
    · simp [hv, hv100, exitLoop, hwh2, h]
    · simp [hv, hv100, h]

theorem goodPin_runTick (o : WriteOracle) (s : PinState) (ls : LoopState)
    (hloop : s.loop = some ls) (h : goodPin s) :
    goodPin (runTick o s ls) := by
  have hlive : s.liveLoops = 1 := by
    unfold goodPin at h
    rw [hloop] at h
    simpa using h
  unfold runTick
  split
  next e s1 heq =>
    have hh := SetHigh_fields o s
    rw [heq] at hh
    simp at hh
    unfold goodPin
    simp [hh.2.1, hlive]
  next s1 heq =>
    have hh := SetHigh_fields o s
    rw [heq] at hh
    simp at hh
    split
    next e s3 heq2 =>
      have hl2 := SetLow_fields o { s1 with holdLog := s1.holdLog ++ [ls.highDuration] }
      rw [heq2] at hl2
      simp at hl2
      unfold goodPin
      simp [hl2.2.1, hh.2.1, hlive]
    next s3 heq2 =>
      have hl2 := SetLow_fields o { s1 with holdLog := s1.holdLog ++ [ls.highDuration] }
      rw [heq2] at hl2
      simp at hl2
      unfold goodPin
      rw [hl2.1, hh.1, hloop, hl2.2.1, hh.2.1, hlive]
      simp

theorem goodPin_startPwmLoop (o : WriteOracle) (s : PinState) (v : Int)
    (s1 : PinState) (hs : startPwmLoop o s v = some s1) (h : goodPin s) :
    goodPin s1 := by
  unfold startPwmLoop at hs
  cases hl : s.loop with
  | none =>
    simp only [hl] at hs
    cases hs
    unfold goodPin at h ⊢
    rw [hl] at h
    simp at h
    simp [h]
  | some ls =>
    simp only [hl] at hs
    cases hm : ls.mode with
    | running =>
      simp only [hm] at hs
      cases hs
      exact goodPin_recvUpdate o s ls v hl h
    | awaitingQuit e => simp only [hm] at hs; cases hs

theorem close_state (ce ue : Option Err) (s : PinState) :
    (Close ce ue s).2.1 = (stopPwmLoop s).2 := by
  unfold Close
  rcases hstop : stopPwmLoop s with ⟨e, s1⟩
  cases e <;> cases ce <;> simp

theorem goodPin_runCall (o : WriteOracle) (s : PinState) (c : Call)
    (h : goodPin s) : goodPin (runCall o s c) := by
  cases c with
  | setPWM v =>
    simp only [runCall]
    unfold SetPWM
    by_cases hv : v = 0
    · subst hv
      simp only [if_pos rfl]
      show goodPin (SetLow o (stopPwmLoop s).2).2
      have h1 := goodPin_stopPwmLoop s h
      obtain ⟨hw1, hw2, -⟩ := SetLow_fields o (stopPwmLoop s).2
      unfold goodPin at h1 ⊢
      rw [hw1, hw2]
      exact h1
    · simp only [hv, if_neg hv]
      cases hs : startPwmLoop o s v with
      | none => simpa [hs] using h
      | some s1 =>
        simp only [hs, Option.map_some']
        exact goodPin_startPwmLoop o s v s1 hs h
  | close ce ue =>
    simp only [runCall]
    rw [close_state]
    exact goodPin_stopPwmLoop s h
  | timerTick =>
    simp only [runCall]
    unfold tick
    cases hl : s.loop with
    | none => simpa [hl] using h
    | some ls =>
      simp only [hl]
      cases hm : ls.mode with
      | running => simp only [hm]; exact goodPin_runTick o s ls hl h
      | awaitingQuit e => simpa [hm] using h

theorem goodPin_runCalls (o : WriteOracle) (cs : List Call) (s : PinState)
    (h : goodPin s) : goodPin (runCalls o cs s) := by
  induction cs generalizing s with
  | nil => exact h
  | cons c cs ih => exact ih (runCall o s c) (goodPin_runCall o s c h)

theorem startPwmLoop_attached_fields (o : WriteOracle) (s : PinState)
    (ls : LoopState) (v : Int) (s1 : PinState) (hloop : s.loop = some ls)
    (hs : startPwmLoop o s v = some s1) :
    s1.loopsStarted = s.loopsStarted := by
  unfold startPwmLoop at hs
  simp only [hloop] at hs
  cases hm : ls.mode with
  | awaitingQuit e => simp only [hm] at hs; cases hs
  | running =>
    simp only [hm] at hs
    cases hs
    unfold recvUpdate SetLow SetHigh
    obtain ⟨-, hwl2, hwl3⟩ := writeLevel_fields o s Level.low
    obtain ⟨-, hwh2, hwh3⟩ := writeLevel_fields o s Level.high
    by_cases hv : v = 0
    · simp [hv, exitLoop, hwl2, hwl3]
    · by_cases hv100 : v = 100
      · simp [hv, hv100, exitLoop, hwh2, hwh3]
      · simp [hv, hv100]

/-! Claim theorems. -/

/-- C1.  The claim says `SetPWM v` on a pin with no attached loop starts a
loop whose initial duty value is `v`, so the high phase of the first cycle lasts
`period * v / 100`.  The code drops `initialValue` in the fresh-start branch
of `startPwmLoop`: at `v = 50` the `highDuration` of the new loop is `0`, the
high phase of the first tick holds for `0` — although `valueToDuration 50 period`
is `10000000` ns, nonzero — and the claimed duty only takes effect after a
further update.  This evaluates the code at the failing input. -/
theorem setPWM_fresh_drops_initial_value :
    SetPWM noFail freshPin 50 = some (none, startedPin)
    ∧ startedPin.loop = some { highDuration := 0, mode := LoopMode.running }
    ∧ (tick noFail startedPin).holdLog = [0]
    ∧ valueToDuration 50 period = 10000000 := by
  refine ⟨rfl, rfl, rfl, by decide⟩

/-- C2.  The claim says that after `SetPWM 100` the line has been forced
High and no loop remains attached, for every prior state.  Counterexample:
on a pin with no attached loop, `SetPWM 100` launches a fresh goroutine and
the value `100` is never delivered to it — afterwards the loop is still
attached (and stays attached across further ticks), no High write has
occurred, and the line is Low. -/
theorem setPWM100_fresh_leaves_loop_attached :
    SetPWM noFail freshPin 100 = some (none, startedPin)
    ∧ startedPin.loop ≠ none
    ∧ startedPin.writeLog = []
    ∧ startedPin.line = Level.low
    ∧ (tick noFail startedPin).loop ≠ none := by
  refine ⟨rfl, by decide, rfl, rfl, by decide⟩

/-- C3 counterexample.  The claim says that when a line write fails inside
a tick and no stop is pending, the loop terminates unilaterally and
silently, discarding the error.  In the code the goroutine instead blocks
on `<-p.quitPwmLoop`: after a failed tick on `runningPin` the loop is still
attached, and a later `stopPwmLoop` receives exactly the discarded-per-the-
claim error. -/
theorem loop_write_failure_not_silent :
    (tick failAll runningPin).loop
      = some { highDuration := 10000000, mode := LoopMode.awaitingQuit "boom" }
    ∧ (stopPwmLoop (tick failAll runningPin)).1 = some "boom" := by
  decide

/-- C3 as amended: if a line write — the tick-entry `SetHigh` or the
end-of-hold `SetLow` — fails inside a tick, the loop does not exit; it
blocks waiting on the quit channel holding the error, and the next stop
request receives that error and detaches the loop — whether or not a stop
was pending when the write failed.  The hypothesis covers both failure
points: the first write of the tick fails with `e`, or the first write
succeeds and the second fails with `e`. -/
theorem loop_write_failure_awaits_stop (o : WriteOracle) (s : PinState)
    (ls : LoopState) (e : Err) (hloop : s.loop = some ls)
    (hmode : ls.mode = LoopMode.running)
    (hfail : o s.writeCount = some e
      ∨ (o s.writeCount = none ∧ o (s.writeCount + 1) = some e)) :
    (tick o s).loop = some { ls with mode := LoopMode.awaitingQuit e }
    ∧ (stopPwmLoop (tick o s)).1 = some e
    ∧ (stopPwmLoop (tick o s)).2.loop = none := by
  rcases hfail with hfail | ⟨hok, hfail⟩
  · have ht : tick o s
        = { s with writeCount := s.writeCount + 1,
                   loop := some { ls with mode := LoopMode.awaitingQuit e } } := by
      unfold tick runTick SetHigh writeLevel
      simp [hloop, hmode, hfail]
    rw [ht]
    unfold stopPwmLoop exitLoop
    simp
  · have ht : tick o s
        = { s with line := Level.high,
                   writeCount := s.writeCount + 1 + 1,
                   writeLog := s.writeLog ++ [Level.high],
                   holdLog := s.holdLog ++ [ls.highDuration],
                   loop := some { ls with mode := LoopMode.awaitingQuit e } } := by
      unfold tick runTick SetHigh SetLow writeLevel
      simp [hloop, hmode, hok, hfail]
    rw [ht]
    unfold stopPwmLoop exitLoop
    simp

theorem loop_write_failure_awaits_stop_witness :
    (tick failSecond runningPin).loop
      = some { highDuration := 10000000, mode := LoopMode.awaitingQuit "boom" }
    ∧ (stopPwmLoop (tick failSecond runningPin)).1 = some "boom"
    ∧ (stopPwmLoop (tick failSecond runningPin)).2.loop = none :=
  loop_write_failure_awaits_stop failSecond runningPin
    { highDuration := 10000000, mode := LoopMode.running } "boom" rfl rfl
    (Or.inr ⟨rfl, rfl⟩)

/-- C4.  `SetPWM` returns `nil` on every path: whenever a call returns at
all, for any driver, pin state and integer duty value, the returned error
is `nil` — write errors inside the loop are never propagated to the caller. -/
theorem setPWM_never_errors (o : WriteOracle) (s : PinState) (v : Int)
    (r : Option Err × PinState) (h : SetPWM o s v = some r) :
    r.1 = none := by
  unfold SetPWM at h
  split at h
  · cases h; rfl
  · rw [Option.map_eq_some'] at h
    obtain ⟨s1, _, hr⟩ := h
    rw [← hr]

theorem setPWM_never_errors_witness :
    ((none : Option Err), startedPin).1 = (none : Option Err) :=
  setPWM_never_errors noFail freshPin 50 ((none : Option Err), startedPin) rfl

/-- C5.  `SetPWM 0`, from any prior state, first runs the stop handshake —
after which no loop is attached — and then performs a forced Low write; as
long as that single write succeeds, the call returns `nil`, the line is Low,
the write log has gained exactly one Low write, and no loop is attached.
(The stop handshake itself performs no writes, so the write succeeding is
the oracle allowing the write at the current write index of the pin.) -/
theorem setPWM_zero_forces_low (o : WriteOracle) (s : PinState)
    (hok : o s.writeCount = none) :
    ∃ s', SetPWM o s 0 = some (none, s')
      ∧ s'.loop = none
      ∧ s'.line = Level.low
      ∧ s'.writeLog = s.writeLog ++ [Level.low] := by
  obtain ⟨hloop, hcount, hlog, -, -⟩ := stopPwmLoop_fields s
  refine ⟨(SetLow o (stopPwmLoop s).2).2, by unfold SetPWM; simp, ?_⟩
  unfold SetLow writeLevel
  rw [hcount, hok]
  simp [hloop, hlog]

theorem setPWM_zero_forces_low_witness :
    ∃ s', SetPWM noFail runningPin 0 = some (none, s')
      ∧ s'.loop = none
      ∧ s'.line = Level.low
      ∧ s'.writeLog = runningPin.writeLog ++ [Level.low] :=
  setPWM_zero_forces_low noFail runningPin rfl

/-- C8.  For every duty value in 0..=100, the high-phase duration computed
by the loop is exactly `v * 200000` ns = `v` × 200 µs: the fixed period is
20 ms and `valueToDuration` computes `(period / 100) * v` exactly, with no
truncation loss, since 20 ms is divisible by 100. -/
theorem valueToDuration_linear (v : Int) (h0 : 0 ≤ v) (h1 : v ≤ 100) :
    valueToDuration v period = v * 200000 := by
  rw [valueToDuration_period, wrap64_eq_self (200000 * v) (by omega) (by omega)]
  ring

theorem valueToDuration_linear_witness :
    valueToDuration 37 period = 37 * 200000 :=
  valueToDuration_linear 37 (by decide) (by decide)

/-- C9.  `GetValue` swallows read errors: a failed read returns value `0`
with a `nil` error, for every read error; only on a successful read is the
content parsed, the result being exactly `strconv.Atoi` of the bytes,
including any parse error. -/
theorem getValue_swallows_read_error (e : Err) (b : String) :
    GetValue (Except.error e) = (0, none)
    ∧ GetValue (Except.ok b) = Atoi b :=
  ⟨rfl, rfl⟩

theorem getValue_swallows_read_error_witness :
    GetValue (Except.error "eio") = ((0 : Int), (none : Option Err)) :=
  (getValue_swallows_read_error "eio" "7").1

/-- C10 counterexample.  The claim says that for every duty value `v < 0`
the computed duration is non-positive, so the line behaves as always low.
Go `int64` arithmetic wraps: at `v = -46116860184274` the product
`200000 * v = -9223372036854800000` underflows `int64` and wraps to the
large positive duration `9223372036854751616` ns, which the loop then
holds High for — not an immediate Low.  Delivering that value to a running
loop stores the positive duration unclamped. -/
theorem valueToDuration_negative_wraps_positive :
    valueToDuration (-46116860184274) period = 9223372036854751616
    ∧ ¬ valueToDuration (-46116860184274) period ≤ 0
    ∧ (SetPWM noFail runningPin (-46116860184274)).map (fun r => r.2.loop)
        = some (some { highDuration := 9223372036854751616,
                       mode := LoopMode.running }) := by
  refine ⟨by decide, by decide, by decide⟩

/-- C10 as amended.  `SetPWM` neither rejects nor clamps out-of-range duty
values: a negative `v` sent to an attached running loop is passed through
unvalidated (the call returns `nil` and the `highDuration` of the loop
becomes exactly `valueToDuration v period`).  For negative `v` down to
`-46116860184273` — the range in which the `int64` product `200000 * v`
does not underflow — that duration is non-positive, and on the next tick
the high phase degenerates to an immediate Low: the recorded hold is that
non-positive duration and the line ends the tick Low.  (Below that range
the product wraps and can be positive — see the counterexample.  The two
line writes of the tick are assumed to succeed.) -/
theorem setPWM_negative_degenerates (o : WriteOracle) (s : PinState)
    (ls : LoopState) (v : Int) (hv : v < 0) (hlo : -46116860184273 ≤ v)
    (hloop : s.loop = some ls) (hmode : ls.mode = LoopMode.running)
    (h1 : o s.writeCount = none) (h2 : o (s.writeCount + 1) = none) :
    ∃ s', SetPWM o s v = some (none, s')
      ∧ s'.loop = some { ls with highDuration := valueToDuration v period }
      ∧ valueToDuration v period ≤ 0
      ∧ (tick o s').line = Level.low
      ∧ (tick o s').holdLog = s.holdLog ++ [valueToDuration v period] := by
  have hv0 : v ≠ 0 := by omega
  have hv100 : v ≠ 100 := by omega
  refine ⟨{ s with loop := some { ls with highDuration := valueToDuration v period } },
    ?_, rfl, ?_, ?_, ?_⟩
  · unfold SetPWM startPwmLoop recvUpdate
    simp [hv0, hloop, hmode, hv100]
  · have hb : (-9223372036854775808 : Int) ≤ 200000 * v
        ∧ (200000 : Int) * v < 9223372036854775808
        ∧ (200000 : Int) * v ≤ 0 := by
      refine ⟨?_, ?_, ?_⟩ <;> omega
    rw [valueToDuration_period, wrap64_eq_self (200000 * v) hb.1 hb.2.1]
    exact hb.2.2
  · unfold tick runTick SetHigh SetLow writeLevel
    simp [h1, h2, hmode]
  · unfold tick runTick SetHigh SetLow writeLevel
    simp [h1, h2, hmode]

/-- C6.  Over every serialised history of `SetPWM`/`Close` calls and ticks
started from a fresh pin, at most one control-loop goroutine is alive at any
time; moreover a `SetPWM` with duty 1..=99 issued while a loop is attached
never launches a second goroutine — it forwards the value to the existing
loop, leaving the count of launched goroutines unchanged. -/
theorem at_most_one_loop (o : WriteOracle) (cs : List Call) :
    (runCalls o cs freshPin).liveLoops ≤ 1
    ∧ (∀ v : Int, 1 ≤ v → v ≤ 99 →
        ∀ ls, (runCalls o cs freshPin).loop = some ls →
        ∀ r, SetPWM o (runCalls o cs freshPin) v = some r →
          r.2.loopsStarted = (runCalls o cs freshPin).loopsStarted) := by
  have hg : goodPin (runCalls o cs freshPin) :=
    goodPin_runCalls o cs freshPin (by decide)
  constructor
  · unfold goodPin at hg
    rw [hg]
    split <;> omega
  · intro v hv1 hv99 ls hloop r hr
    have hv0 : v ≠ 0 := by omega
    unfold SetPWM at hr
    rw [if_neg hv0, Option.map_eq_some'] at hr
    obtain ⟨s1, hs1, hr2⟩ := hr
    subst hr2
    simpa using startPwmLoop_attached_fields o (runCalls o cs freshPin) ls v s1 hloop hs1

theorem at_most_one_loop_witness :
    (runCalls noFail [Call.setPWM 50] freshPin).liveLoops ≤ 1
    ∧ updatedPin.loopsStarted = (runCalls noFail [Call.setPWM 50] freshPin).loopsStarted :=
  ⟨(at_most_one_loop noFail [Call.setPWM 50]).1,
   (at_most_one_loop noFail [Call.setPWM 50]).2 30 (by decide) (by decide)
     { highDuration := 0, mode := LoopMode.running } (by decide)
     ((none : Option Err), updatedPin) (by decide)⟩

/-- C7 counterexample.  The claim says `Close` is equivalent to
`set_duty(0)` followed by releasing resources.  On a pin with an attached
running loop, `SetPWM 0` performs a forced Low write after the stop
handshake but `Close` performs no line write at all: from the same state
the two leave different write logs, so they are not equivalent. -/
theorem close_performs_no_low_write :
    (Close none none runningPin).2.1.writeLog = []
    ∧ (SetPWM noFail runningPin 0).map (fun r => r.2.writeLog)
        = some [Level.low] := by
  decide

/-- C7 as amended: `Close` stops any attached loop (without the forced Low
write that `set_duty(0)` performs), then closes the value handle, then
unexports the line; it returns the first error in that encounter order —
stop-loop error first, then handle-close error, then unexport error — and
the first failure short-circuits the remaining steps.  Afterwards no loop
is attached and no line write has been performed. -/
theorem close_error_order (ce ue : Option Err) (s : PinState) :
    ((stopPwmLoop s).1.isSome → (Close ce ue s).1 = (stopPwmLoop s).1
        ∧ (Close ce ue s).2.2 = [CloseStep.stopLoop])
    ∧ ((stopPwmLoop s).1 = none → ce.isSome → (Close ce ue s).1 = ce
        ∧ (Close ce ue s).2.2 = [CloseStep.stopLoop, CloseStep.closeValueFile])
    ∧ ((stopPwmLoop s).1 = none → ce = none → (Close ce ue s).1 = ue
        ∧ (Close ce ue s).2.2
            = [CloseStep.stopLoop, CloseStep.closeValueFile, CloseStep.unexportChannel])
    ∧ (Close ce ue s).2.1.loop = none
    ∧ (Close ce ue s).2.1.writeLog = s.writeLog := by
  obtain ⟨hf1, -, hf3, -, -⟩ := stopPwmLoop_fields s
  unfold Close
  rcases hstop : stopPwmLoop s with ⟨e, s1⟩
  rw [hstop] at hf1 hf3
  simp at hf1 hf3
  cases e <;> cases ce <;> simp [hf1, hf3]

theorem close_error_order_witness :
    ((Close (some "efile") none freshPin).1 = some "efile"
      ∧ (Close (some "efile") none freshPin).2.2
          = [CloseStep.stopLoop, CloseStep.closeValueFile]) :=
  (close_error_order (some "efile") none freshPin).2.1 rfl rfl

theorem setPWM_negative_degenerates_witness :
    ∃ s', SetPWM noFail runningPin (-5) = some (none, s')
      ∧ s'.loop = some { highDuration := valueToDuration (-5) period,
                         mode := LoopMode.running }
      ∧ valueToDuration (-5) period ≤ 0
      ∧ (tick noFail s').line = Level.low
      ∧ (tick noFail s').holdLog = runningPin.holdLog ++ [valueToDuration (-5) period] :=
  setPWM_negative_degenerates noFail runningPin
    { highDuration := 10000000, mode := LoopMode.running } (-5)
    (by decide) (by decide) rfl rfl rfl rfl

end Gpio
